import Mathlib

/-! golang-ipc: the server endpoint.

A shallow embedding of `server_all.go`, `connect_other.go`, `types.go` and
`vars.go`.  Go `int` is a mathematical `Int` (64-bit targets; the only place
where width matters is the 4-byte wire encoding, which reduces modulo `2^32`).
A byte slice is a `List Byte` whose capacity equals its length.  A channel is
its closed flag plus the values offered by parked senders, in arrival order;
a nil channel is `none`.  The inbound side of a connection is the list of byte
segments the transport hands to successive reads.  Every function is the
sequential body of the Go function of the same name; what another goroutine or
an external collaborator (transport, timer, cipher, name check) does is an
argument, and a panic in any goroutine ends the process.
-/

namespace Ipc

/-! ## types.go, vars.go -/

abbrev Byte := Fin 256

/-- Status of the connection (`types.go`, in `iota` order). -/
inductive Status where
  | NotConnected
  | Listening
  | Connecting
  | Connected
  | ReConnecting
  | Closed
  | Closing
  | Error
  | Timeout
deriving DecidableEq, Repr

/-- Message of `types.go`; `err = none` is Go's nil error. -/
structure Message where
  err : Option String
  MsgType : Int
  Data : List Byte
  Status : String
deriving DecidableEq, Repr

/-- ServerConfig of `types.go`; `Timeout` is a `time.Duration` (nanoseconds). -/
structure ServerConfig where
  Timeout : Int
  MaxMsgSize : Int
  Encryption : Bool
  UnmaskPermissions : Bool
  SocketBasePath : String
deriving DecidableEq, Repr

def minMsgSize : Int := 1024

def defaultMaxMsgSize : Int := 3145728

/-- The package variable `defaultServerConfig`: only `MaxMsgSize` is set, the
other fields are Go zero values. -/
def defaultServerConfig : ServerConfig :=
  { Timeout := 0, MaxMsgSize := defaultMaxMsgSize, Encryption := false,
    UnmaskPermissions := false, SocketBasePath := "" }

/-- An unbuffered Go channel of `*Message`: whether it has been closed, and the
values of the senders currently parked on it, oldest first. -/
structure Chan where
  closed : Bool
  pending : List Message
deriving DecidableEq, Repr

/-- A transport handle (`net.Listener` or `net.Conn`): only whether it was
closed matters to the endpoint. -/
structure Handle where
  closed : Bool
deriving DecidableEq, Repr

/-- Server of `types.go`.  `none` is a nil interface / nil channel;
`connChannel` is whether `make(chan bool)` has run (the `enc` cipher is the
`encrypt` / `decrypt` argument of the pipelines). -/
structure Server where
  name : String
  listen : Option Handle
  conn : Option Handle
  status : Status
  received : Option Chan
  connChannel : Bool
  toWrite : Option Chan
  conf : ServerConfig
deriving DecidableEq, Repr

/-- What a call does to the calling goroutine: it returns, it parks on a
channel operation nobody completes, or it panics. -/
inductive Outcome (α : Type) where
  | done (a : α)
  | blocks
  | panics (msg : String)
deriving DecidableEq, Repr

/-- Sequencing of outcomes. -/
def Outcome.bind {α β : Type} (o : Outcome α) (f : α → Outcome β) : Outcome β :=
  match o with
  | .done a => f a
  | .blocks => .blocks
  | .panics msg => .panics msg

/-! ## Channel primitives (Go runtime semantics) -/

/-- Go `make(chan *Message)`. -/
def makeChan : Chan := { closed := false, pending := [] }

/-- Go `ch <- m`: a nil channel parks the sender forever, a closed channel
panics, an open channel takes the offer. -/
def chanSend (ch : Option Chan) (m : Message) : Outcome (Option Chan) :=
  match ch with
  | none => .blocks
  | some c =>
    if c.closed then .panics "send on closed channel"
    else .done (some { c with pending := c.pending ++ [m] })

/-- Go `m, ok := <-ch` on an unbuffered channel: `none` inside `done` is
`ok == false`. -/
def chanRecv (ch : Option Chan) : Outcome (Option Message × Option Chan) :=
  match ch with
  | none => .blocks
  | some c =>
    if c.closed then .done (none, some c)
    else
      match c.pending with
      | [] => .blocks
      | m :: rest => .done (some m, some { c with pending := rest })

/-- Go `close(ch)` on a non-nil channel.  Closing a closed channel panics in
the caller (`error`).  Otherwise the channel is closed and every sender parked
on it is woken with the panic "send on closed channel", which ends the process;
the flag tells whether there was such a sender. -/
def chanClose (c : Chan) : Except String (Chan × Bool) :=
  if c.closed then .error "close of closed channel"
  else .ok ({ closed := true, pending := [] }, !c.pending.isEmpty)

/-! ## server_all.go: the public operations -/

/-- StartServer (`server_all.go` 24-53).  `checkIpcName` is not among the
source files and is taken as an argument (`none` is a nil error).  The
background `go startServer(sc)` is `startServer` below. -/
def StartServer (checkIpcName : String → Option String) (ipcName : String)
    (config : ServerConfig) : Except String Server :=
  match checkIpcName ipcName with
  | some err => .error err
  | none =>
    let sc : Server :=
      { name := ipcName, listen := none, conn := none, status := .NotConnected,
        received := some makeChan, connChannel := false, toWrite := some makeChan,
        conf := config }
    let sc : Server :=
      if sc.conf.Timeout ≤ 0 then
        { sc with conf := { sc.conf with Timeout := defaultServerConfig.Timeout } }
      else sc
    let sc : Server :=
      if sc.conf.MaxMsgSize < minMsgSize then
        { sc with conf := { sc.conf with MaxMsgSize := defaultServerConfig.MaxMsgSize } }
      else sc
    let sc : Server :=
      if sc.conf.SocketBasePath = "" then
        { sc with conf := { sc.conf with SocketBasePath := defaultServerConfig.SocketBasePath } }
      else sc
    .ok sc

/-- Server.Read (`server_all.go` 199-212): the pair is Go's `(*Message, error)`. -/
def Server.Read (sc : Server) : Outcome (Server × Option Message × Option String) :=
  (chanRecv sc.received).bind fun r =>
    match r with
    | (none, ch) =>
      .done ({ sc with received := ch }, none, some "the receive channel has been closed")
    | (some m, ch) =>
      if m.err ≠ none then .done ({ sc with received := ch }, none, m.err)
      else .done ({ sc with received := ch }, some m, none)

/-- Server.Write (`server_all.go` 217-239).  `statusText` is `Status.String`,
which is not among the source files.  The result is the server after the call
and the returned error. -/
def Server.Write (statusText : Status → String) (sc : Server) (msgType : Int)
    (message : List Byte) : Outcome (Server × Option String) :=
  if msgType = 0 then .done (sc, some "Message type 0 is reserved")
  else
    let mlen : Int := message.length
    if mlen > sc.conf.MaxMsgSize then
      .done (sc, some "Message exceeds maximum message length")
    else if sc.status = .Connected then
      (chanSend sc.toWrite { err := none, MsgType := msgType, Data := message, Status := "" }).bind
        fun ch => .done ({ sc with toWrite := ch }, none)
    else .done (sc, some (statusText sc.status))

/-- Server.Close (`server_all.go` 302-320).  The second component is the panic
that ends the process, if there is one: the panic of a `close` in the calling
goroutine (the statements after it are not run), or the panic of a sender that
a `close` woke. -/
def Server.Close (sc : Server) : Server × Option String :=
  let sc : Server := { sc with status := .Closing }
  let sc : Server :=
    match sc.listen with
    | some l => { sc with listen := some { l with closed := true } }
    | none => sc
  let sc : Server :=
    match sc.conn with
    | some c => { sc with conn := some { c with closed := true } }
    | none => sc
  match sc.received with
  | some r =>
    match chanClose r with
    | .error p => (sc, some p)
    | .ok (r1, woke1) =>
      let sc : Server := { sc with received := some r1 }
      match sc.toWrite with
      | some w =>
        match chanClose w with
        | .error p => (sc, some p)
        | .ok (w1, woke2) =>
          ({ sc with toWrite := some w1 },
            if woke1 || woke2 then some "send on closed channel" else none)
      | none => (sc, if woke1 then some "send on closed channel" else none)
  | none =>
    match sc.toWrite with
    | some w =>
      match chanClose w with
      | .error p => (sc, some p)
      | .ok (w1, woke2) =>
        ({ sc with toWrite := some w1 }, if woke2 then some "send on closed channel" else none)
    | none => (sc, none)

/-! ## The wire codec helpers -/

/-- The byte holding `n mod 256`. -/
def byteOf (n : Nat) : Byte := ⟨n % 256, Nat.mod_lt n (by decide)⟩

/-- Modelled from the spec: `intToBytes` is not among the source files.  The
spec (4.3, 6) fixes a 4-byte length field and a 4-byte msgType field in a fixed
byte order; the Go `int` is converted to an unsigned 32-bit value (reduction
modulo `2^32`) and laid out big-endian. -/
def intToBytes (n : Int) : List Byte :=
  let u : Nat := (n % 4294967296).toNat
  [byteOf (u / 16777216), byteOf (u / 65536), byteOf (u / 256), byteOf u]

/-- Modelled from the spec: `bytesToInt` is not among the source files.  It
reads the first four bytes as an unsigned big-endian 32-bit value, the inverse
layout of `intToBytes`; the pipelines only ever call it on exactly four bytes. -/
def bytesToInt (b : List Byte) : Int :=
  match b with
  | b0 :: b1 :: b2 :: b3 :: _ =>
    ((b0.val * 16777216 + b1.val * 65536 + b2.val * 256 + b3.val : Nat) : Int)
  | _ => 0

/-! ## server_all.go: the write pipeline -/

/-- Server.write (`server_all.go` 241-280).  The list is the sequence of values
the loop receives from `sc.toWrite` (the loop breaks when the channel is
closed); the result is the bytes handed to the connection writer, in order.
`encrypt` returns Go's pair `([]byte, error)`; its error is ignored as in the
source, and so are the errors of the writer. -/
def Server.write (sc : Server) (encrypt : List Byte → List Byte × Option String) :
    List Message → List Byte
  | [] => []
  | m :: queue =>
    let toSend := intToBytes m.MsgType
    let toSend :=
      if sc.conf.Encryption then (encrypt (toSend ++ m.Data)).1
      else toSend ++ m.Data
    intToBytes (toSend.length : Int) ++ toSend ++ Server.write sc encrypt queue

/-! ## server_all.go: the read pipeline -/

/-- The inbound side of the connection: the byte segments still to come, in
the order the transport hands them to `Read`.  One `Read` returns bytes of one
segment only, so a segment shorter than the buffer is a short read. -/
abbrev Inbound := List (List Byte)

/-- One `sc.conn.Read(buff)`: `none` is a read error (the stream has ended);
otherwise the buffer after the call and what is left to come.  A read copies
the bytes of the first non-empty segment, up to the buffer length, over the
front of the buffer and leaves the rest of the buffer as it was; a zero-length
buffer is returned at once. -/
def connRead : Inbound → List Byte → Option (List Byte × Inbound)
  | [], buff => if buff.length = 0 then some (buff, []) else none
  | seg :: rest, buff =>
    if buff.length = 0 then some (buff, seg :: rest)
    else if seg.length = 0 then connRead rest buff
    else some (seg.take buff.length ++ buff.drop seg.length, seg.drop buff.length :: rest)

/-- The number of bytes and segments still to come: every read into a
non-empty buffer makes it smaller. -/
def connSize (stream : Inbound) : Nat :=
  (stream.map fun seg => seg.length + 1).sum

/-- Result of `readData`: `ok` is `true` with the filled buffer and the bytes
left; `failed` is `false` with the server after the status update and whether
`go sc.reConnect()` was started. -/
inductive ReadData where
  | ok (buff : List Byte) (rest : Inbound)
  | failed (sc : Server) (reconnect : Bool)
deriving DecidableEq, Repr

/-- Server.readData (`server_all.go` 163-179). -/
def Server.readData (sc : Server) (stream : Inbound) (buff : List Byte) : ReadData :=
  match connRead stream buff with
  | none =>
    if sc.status = .Closing then .failed { sc with status := .Closed } false
    else .failed sc true
  | some (b, rest) => .ok b rest

/-- How the read task ends. -/
inductive ReadExit where
  | closed
  | reconnect
  | blocked
  | panic (msg : String)
  | fuel
deriving DecidableEq, Repr

/-- One iteration of the loop of `Server.read`: the loop ends (`break` or a
panic) or goes round again (`continue` or the end of the body). -/
inductive Step where
  | stop (sc : Server) (exit : ReadExit)
  | next (sc : Server) (bLen : List Byte) (stream : Inbound)
deriving DecidableEq, Repr

/-- The statement `sc.received <- m` inside the read loop. -/
def Server.publish (sc : Server) (m : Message) (bLen : List Byte) (stream : Inbound) : Step :=
  match chanSend sc.received m with
  | .done ch => .next { sc with received := ch } bLen stream
  | .blocks => .stop sc .blocked
  | .panics p => .stop sc (.panic p)

/-- The decoding of a received payload (`server_all.go` 146-150 and 153-157):
`msg[:4]` panics when the slice has fewer than four bytes of capacity. -/
def Server.deliver (sc : Server) (msg bLen : List Byte) (stream : Inbound) : Step :=
  if msg.length < 4 then .stop sc (.panic "slice bounds out of range")
  else if bytesToInt (msg.take 4) = 0 then .next sc bLen stream
  else
    sc.publish { err := none, MsgType := bytesToInt (msg.take 4), Data := msg.drop 4,
                 Status := "" } bLen stream

/-- The body of the loop of Server.read (`server_all.go` 125-158).  `decrypt`
returns Go's pair `([]byte, error)`. -/
def Server.readFrame (sc : Server) (decrypt : List Byte → List Byte × Option String)
    (bLen : List Byte) (stream : Inbound) : Step :=
  match sc.readData stream bLen with
  | .failed sc1 rc => .stop sc1 (if rc then .reconnect else .closed)
  | .ok bLen s1 =>
    let mLen := bytesToInt bLen
    let msgRecvd : List Byte := List.replicate mLen.toNat 0
    match sc.readData s1 msgRecvd with
    | .failed sc1 rc => .stop sc1 (if rc then .reconnect else .closed)
    | .ok msgRecvd s2 =>
      if sc.conf.Encryption then
        match decrypt msgRecvd with
        | (_, some err) =>
          sc.publish { err := some err, MsgType := -2, Data := [], Status := "" } bLen s2
        | (msgFinal, none) => sc.deliver msgFinal bLen s2
      else sc.deliver msgRecvd bLen s2

/-- The result of the read task: the server when the task ends and why it ends. -/
structure ReadResult where
  server : Server
  exit : ReadExit
deriving DecidableEq, Repr

/-- The `for` loop of Server.read, with a bound on the number of iterations. -/
def Server.readLoop (decrypt : List Byte → List Byte × Option String) :
    Nat → Server → List Byte → Inbound → ReadResult
  | 0, sc, _, _ => { server := sc, exit := .fuel }
  | n + 1, sc, bLen, stream =>
    match sc.readFrame decrypt bLen stream with
    | .stop sc1 e => { server := sc1, exit := e }
    | .next sc1 bLen1 rest => Server.readLoop decrypt n sc1 bLen1 rest

/-- The loop of Server.read entered with length buffer `bLen`: every iteration
that goes round makes `connSize` smaller, so `connSize stream + 1` iterations
are enough (`readLoop_fuel`). -/
def Server.readFrom (sc : Server) (decrypt : List Byte → List Byte × Option String)
    (bLen : List Byte) (stream : Inbound) : ReadResult :=
  Server.readLoop decrypt (connSize stream + 1) sc bLen stream

/-- Server.read (`server_all.go` 119-161) on a connection that delivers the
segments of `stream` and then fails: `bLen := make([]byte, 4)`, then the loop.
A stream of one segment is a connection on which every byte is there when it
is asked for, so that each Read fills its buffer. -/
def Server.read (sc : Server) (decrypt : List Byte → List Byte × Option String)
    (stream : Inbound) : ReadResult :=
  sc.readFrom decrypt (List.replicate 4 0) stream

/-! ## Establishment: connect_other.go and server_all.go -/

/-- Which case of the `select` in `connectionTimer` becomes ready first:
`connected` when a client was accepted, its handshake succeeded and the accept
loop sent on `connChannel`; `expired` when the ticker fired with no client. -/
inductive TimerEvent where
  | connected
  | expired
deriving DecidableEq, Repr

/-- One iteration of Server.acceptLoop (`server_all.go` 65-90) after `Accept`
has returned a connection.  `handshakeErr` is the result of `sc.handshake()`,
which is not among the source files.  `go sc.read()` and `go sc.write()` are
the two pipelines above.  The flag is whether the iteration sent on
`sc.connChannel`. -/
def Server.acceptLoop (statusText : Status → String) (sc : Server)
    (handshakeErr : Option String) : Outcome (Server × Bool) :=
  if sc.status = .Listening ∨ sc.status = .ReConnecting then
    let sc : Server := { sc with conn := some { closed := false } }
    match handshakeErr with
    | some err2 =>
      (chanSend sc.received { err := some err2, MsgType := -2, Data := [], Status := "" }).bind
        fun ch =>
          let sc : Server := { sc with received := ch, status := .Error }
          match sc.listen with
          | none => .panics "invalid memory address or nil pointer dereference"
          | some l =>
            .done ({ sc with listen := some { l with closed := true },
                             conn := some { closed := true } }, false)
    | none =>
      let sc : Server := { sc with status := .Connected }
      (chanSend sc.received
          { err := none, MsgType := -1, Data := [], Status := statusText sc.status }).bind
        fun ch =>
          if sc.connChannel then .done ({ sc with received := ch }, true)
          else .blocks
  else .done (sc, false)

/-- What the accept-loop goroutine has done to the server by the time the
`select` of connectionTimer fires: on `connected` one iteration with a
successful handshake, on `expired` nothing, as it is still parked in `Accept`. -/
def Server.accepted (statusText : Status → String) (sc : Server) (ev : TimerEvent) :
    Outcome Server :=
  match ev with
  | .connected => (sc.acceptLoop statusText none).bind fun r => .done r.1
  | .expired => .done sc

/-- Server.connectionTimer (`server_all.go` 96-117).  Without a timeout there
is no ticker, and a client that never connects parks the caller forever. -/
def Server.connectionTimer (sc : Server) (ev : TimerEvent) : Outcome (Server × Option String) :=
  if sc.conf.Timeout ≠ 0 then
    match ev with
    | .connected => .done (sc, none)
    | .expired =>
      match sc.listen with
      | some l =>
        .done ({ sc with listen := some { l with closed := true } },
          some "Timed out waiting for client to connect")
      | none => .panics "invalid memory address or nil pointer dereference"
  else
    match ev with
    | .connected => .done (sc, none)
    | .expired => .blocks

/-- Server.run of `connect_other.go` (17-54).  `removeErr` and `listenErr` are
the errors of `os.RemoveAll` and `net.Listen`; the work of `go sc.acceptLoop()`
up to the `select` of connectionTimer is `accepted`. -/
def Server.run (statusText : Status → String) (sc : Server)
    (removeErr listenErr : Option String) (ev : TimerEvent) : Outcome (Server × Option String) :=
  match removeErr with
  | some err => .done (sc, some err)
  | none =>
    match listenErr with
    | some err => .done (sc, some err)
    | none =>
      let sc : Server := { sc with listen := some { closed := false } }
      let sc : Server := { sc with status := .Listening }
      (chanSend sc.received
          { err := none, MsgType := -1, Data := [], Status := statusText sc.status }).bind
        fun ch =>
          let sc : Server := { sc with received := ch, connChannel := true }
          (sc.accepted statusText ev).bind fun sc =>
            (sc.connectionTimer ev).bind fun r =>
              match r with
              | (sc, some err) => .done (sc, some err)
              | (sc, none) => .done (sc, none)

/-- The function startServer (`server_all.go` 55-61), the body of the goroutine
started by StartServer. -/
def startServer (statusText : Status → String) (sc : Server)
    (removeErr listenErr : Option String) (ev : TimerEvent) : Outcome Server :=
  (sc.run statusText removeErr listenErr ev).bind fun r =>
    match r with
    | (sc, some err) =>
      (chanSend sc.received { err := some err, MsgType := -2, Data := [], Status := "" }).bind
        fun ch => .done { sc with received := ch }
    | (sc, none) => .done sc

/-- Server.reConnect (`server_all.go` 181-195); the accept loop started by run
is still going round and its work up to the `select` is `accepted`. -/
def Server.reConnect (statusText : Status → String) (sc : Server) (ev : TimerEvent) :
    Outcome Server :=
  let sc : Server := { sc with status := .ReConnecting }
  (chanSend sc.received
      { err := none, MsgType := -1, Data := [], Status := statusText sc.status }).bind
    fun ch =>
      let sc : Server := { sc with received := ch }
      (sc.accepted statusText ev).bind fun sc =>
      (sc.connectionTimer ev).bind fun r =>
        match r with
        | (sc, some err) =>
          let sc : Server := { sc with status := .Timeout }
          (chanSend sc.received
              { err := none, MsgType := -1, Data := [], Status := statusText sc.status }).bind
            fun ch =>
              let sc : Server := { sc with received := ch }
              (chanSend sc.received
                  { err := some err, MsgType := -2, Data := [], Status := "" }).bind
                fun ch => .done { sc with received := ch }
        | (sc, none) => .done sc

/-! ## Concrete servers -/

/-- The server returned by StartServer for the name "demo" and the zero
ServerConfig, when the name check accepts every name. -/
def freshServer : Server :=
  { name := "demo", listen := none, conn := none, status := .NotConnected,
    received := some makeChan, connChannel := false, toWrite := some makeChan,
    conf := defaultServerConfig }

/-- The server StartServer returns, at the moment its establishment goroutine
has set Listening and is parked on `sc.received <- Listening status`
(`connect_other.go` 41-42), no Read having been called yet. -/
def parkedServer (statusText : Status → String) : Server :=
  { freshServer with
      listen := some { closed := false }, status := .Listening,
      received := some { closed := false, pending :=
        [{ err := none, MsgType := -1, Data := [], Status := statusText .Listening }] } }

/-- A Connected server with live, empty queues. -/
def connectedServer : Server :=
  { name := "demo", listen := some { closed := false }, conn := some { closed := false },
    status := .Connected, received := some makeChan, connChannel := true,
    toWrite := some makeChan, conf := defaultServerConfig }

/-- The server returned by StartServer for the name "demo" and a ServerConfig
whose only set field is Timeout = 2 s. -/
def timedServer : Server :=
  { freshServer with conf := { defaultServerConfig with Timeout := 2000000000 } }

/-- A Connected server with encryption on. -/
def sealedServer : Server :=
  { connectedServer with conf := { defaultServerConfig with Encryption := true } }

/-- A Connected server configured with MaxMsgSize = 2^32. -/
def bigServer : Server :=
  { connectedServer with conf := { defaultServerConfig with MaxMsgSize := 4294967296 } }

/-! ## Theorems: the validated Send -/

/-- C1: for every server state and every message, `Write(0, message)` returns
the error "Message type 0 is reserved" and leaves the server, and with it the
toWrite queue, exactly as it was. -/
theorem Write_type_zero_reserved (statusText : Status → String) (sc : Server)
    (message : List Byte) :
    Server.Write statusText sc 0 message = .done (sc, some "Message type 0 is reserved") := by
  simp [Server.Write]

/-- C2: for every server state (whatever its status) and every msgType other
than 0, a message longer than the effective MaxMsgSize is rejected with
"Message exceeds maximum message length" and the server, and with it the
toWrite queue, is left exactly as it was. -/
theorem Write_oversize_rejected (statusText : Status → String) (sc : Server) (msgType : Int)
    (message : List Byte) (ht : msgType ≠ 0)
    (hlen : sc.conf.MaxMsgSize < (message.length : Int)) :
    Server.Write statusText sc msgType message
      = .done (sc, some "Message exceeds maximum message length") := by
  simp [Server.Write, ht, hlen]

/-- C8: for a msgType other than 0 and a message within the effective
MaxMsgSize, on a server whose toWrite queue is live whenever it is Connected:
Write returns, its error is nil exactly when the status is Connected; when
Connected the only change is one Message with that MsgType and Data appended
to toWrite; otherwise nothing changes and the error text is the string of the
current status.  The status is the same after the call. -/
theorem Write_valid_nil_iff_Connected (statusText : Status → String) (sc : Server)
    (msgType : Int) (message : List Byte) (ht : msgType ≠ 0)
    (hlen : (message.length : Int) ≤ sc.conf.MaxMsgSize)
    (hw : sc.status = .Connected → ∃ w, sc.toWrite = some w ∧ w.closed = false) :
    ∃ sc1 e, Server.Write statusText sc msgType message = .done (sc1, e)
      ∧ (e = none ↔ sc.status = .Connected)
      ∧ sc1.status = sc.status
      ∧ (sc.status = .Connected →
          sc1 = { sc with toWrite := sc.toWrite.map fun w =>
            { w with pending := w.pending ++
              [{ err := none, MsgType := msgType, Data := message, Status := "" }] } })
      ∧ (sc.status ≠ .Connected → sc1 = sc ∧ e = some (statusText sc.status)) := by
  have hlen1 : ¬ sc.conf.MaxMsgSize < (message.length : Int) := not_lt.mpr hlen
  by_cases hs : sc.status = .Connected
  · obtain ⟨w, hw1, hw2⟩ := hw hs
    refine ⟨{ sc with toWrite := sc.toWrite.map fun w =>
        { w with pending := w.pending ++
          [{ err := none, MsgType := msgType, Data := message, Status := "" }] } },
      none, ?_, ?_, rfl, ?_, ?_⟩
    · simp [Server.Write, ht, hlen1, hs, hw1, chanSend, hw2, Outcome.bind]
    · simp [hs]
    · intro _
      rfl
    · intro h
      exact absurd hs h
  · refine ⟨sc, some (statusText sc.status), ?_, ?_, rfl, ?_, ?_⟩
    · simp [Server.Write, ht, hlen1, hs]
    · simp [hs]
    · intro h
      exact absurd h hs
    · intro _
      exact ⟨rfl, rfl⟩

/-- Witness of `Write_oversize_rejected`: 1025 bytes against a ceiling of 1024. -/
theorem Write_oversize_rejected_witness :
    Server.Write (fun _ => "status")
        { connectedServer with conf := { defaultServerConfig with MaxMsgSize := 1024 } }
        7 (List.replicate 1025 0)
      = .done ({ connectedServer with conf := { defaultServerConfig with MaxMsgSize := 1024 } },
          some "Message exceeds maximum message length") :=
  Write_oversize_rejected (fun _ => "status")
    { connectedServer with conf := { defaultServerConfig with MaxMsgSize := 1024 } }
    7 (List.replicate 1025 0) (by decide) (by rw [List.length_replicate]; decide)

/-- Witness of `Write_valid_nil_iff_Connected` on the Connected server. -/
theorem Write_valid_nil_iff_Connected_witness :
    ∃ sc1 e, Server.Write (fun _ => "status") connectedServer 5 [1, 2, 3] = .done (sc1, e)
      ∧ (e = none ↔ connectedServer.status = .Connected)
      ∧ sc1.status = connectedServer.status
      ∧ (connectedServer.status = .Connected →
          sc1 = { connectedServer with toWrite := connectedServer.toWrite.map fun w =>
            { w with pending := w.pending ++
              [{ err := none, MsgType := 5, Data := [1, 2, 3], Status := "" }] } })
      ∧ (connectedServer.status ≠ .Connected →
          sc1 = connectedServer ∧ e = some ((fun _ => "status") connectedServer.status)) :=
  Write_valid_nil_iff_Connected (fun _ => "status") connectedServer 5 [1, 2, 3] (by decide)
    (by simp [connectedServer, defaultServerConfig, defaultMaxMsgSize])
    (fun _ => ⟨makeChan, rfl, rfl⟩)

/-! ## Theorems: StartServer -/

/-- C9: for every accepted ipcName and every ServerConfig c, StartServer
returns a server whose effective MaxMsgSize is at least 1024: it is
c.MaxMsgSize when that is at least 1024 and 3145728 when it is smaller
(zero and negative values included). -/
theorem StartServer_effective_MaxMsgSize (checkIpcName : String → Option String)
    (ipcName : String) (c : ServerConfig) (hname : checkIpcName ipcName = none) :
    ∃ sc, StartServer checkIpcName ipcName c = .ok sc
      ∧ 1024 ≤ sc.conf.MaxMsgSize
      ∧ (1024 ≤ c.MaxMsgSize → sc.conf.MaxMsgSize = c.MaxMsgSize)
      ∧ (c.MaxMsgSize < 1024 → sc.conf.MaxMsgSize = 3145728) := by
  simp only [StartServer, hname]
  refine ⟨_, rfl, ?_⟩
  by_cases h1 : c.Timeout ≤ 0 <;> by_cases h2 : c.MaxMsgSize < 1024 <;>
    by_cases h3 : c.SocketBasePath = "" <;>
    simp [h1, h2, h3, minMsgSize, defaultServerConfig, defaultMaxMsgSize] <;> omega

/-- Witness of `StartServer_effective_MaxMsgSize`: a negative MaxMsgSize. -/
theorem StartServer_effective_MaxMsgSize_witness :
    ∃ sc, StartServer (fun _ => none) "demo" { defaultServerConfig with MaxMsgSize := -5 } = .ok sc
      ∧ 1024 ≤ sc.conf.MaxMsgSize
      ∧ (1024 ≤ ({ defaultServerConfig with MaxMsgSize := -5 } : ServerConfig).MaxMsgSize →
          sc.conf.MaxMsgSize = ({ defaultServerConfig with MaxMsgSize := -5 } : ServerConfig).MaxMsgSize)
      ∧ (({ defaultServerConfig with MaxMsgSize := -5 } : ServerConfig).MaxMsgSize < 1024 →
          sc.conf.MaxMsgSize = 3145728) :=
  StartServer_effective_MaxMsgSize (fun _ => none) "demo"
    { defaultServerConfig with MaxMsgSize := -5 } rfl

/-- Every server StartServer returns has both queues created and open, and is
NotConnected. -/
theorem StartServer_queues_live (checkIpcName : String → Option String) (ipcName : String)
    (c : ServerConfig) (sc : Server) (h : StartServer checkIpcName ipcName c = .ok sc) :
    sc.received = some makeChan ∧ sc.toWrite = some makeChan ∧ sc.status = .NotConnected := by
  unfold StartServer at h
  split at h
  · exact absurd h (by simp)
  · simp only [Except.ok.injEq] at h
    subst h
    by_cases h1 : c.Timeout ≤ 0 <;> by_cases h2 : c.MaxMsgSize < minMsgSize <;>
      by_cases h3 : c.SocketBasePath = "" <;> simp [h1, h2, h3, defaultServerConfig]

/-! ## Theorems: Close -/

/-- What Close leaves behind, whether or not it panics: the status is Closing,
the configuration is untouched and a created received queue is closed. -/
theorem Close_fields (sc : Server) :
    sc.Close.1.status = .Closing ∧ sc.Close.1.conf = sc.conf
    ∧ (sc.received ≠ none → ∃ c, sc.Close.1.received = some c ∧ c.closed = true) := by
  rcases sc with ⟨nm, l, cn, st, r, cc, w, cf⟩
  cases l <;> cases cn <;> cases r with
  | none =>
    cases w with
    | none => simp [Server.Close]
    | some w =>
      rcases w with ⟨wc, wp⟩
      cases wc <;> simp [Server.Close, chanClose]
  | some r =>
    rcases r with ⟨rc, rp⟩
    cases rc <;> cases w with
    | none => simp [Server.Close, chanClose]
    | some w =>
      rcases w with ⟨wc, wp⟩
      cases wc <;> simp [Server.Close, chanClose]

/-- What the two calls return on the state Close leaves (with the status
possibly moved from Closing to Closed by the read task), for as long as the
process is alive: Read returns a nil message with the error "the receive
channel has been closed", Write returns a non-nil error, and both leave the
server unchanged.  Whether the process survives Close is not part of this
statement. -/
theorem Read_Write_on_closed_state (statusText : Status → String) (sc : Server)
    (hr : sc.received ≠ none) (st : Status) (hst : st = .Closing ∨ st = .Closed) :
    sc.Close.1.status = .Closing
    ∧ Server.Read { sc.Close.1 with status := st }
        = .done ({ sc.Close.1 with status := st }, none,
            some "the receive channel has been closed")
    ∧ ∀ (msgType : Int) (message : List Byte),
        ∃ e, Server.Write statusText { sc.Close.1 with status := st } msgType message
              = .done ({ sc.Close.1 with status := st }, some e)
          ∧ (msgType ≠ 0 → (message.length : Int) ≤ sc.conf.MaxMsgSize → e = statusText st) := by
  obtain ⟨hstat, hconf, hrecv⟩ := Close_fields sc
  obtain ⟨c, hc1, hc2⟩ := hrecv hr
  have hne : st ≠ .Connected := by
    rcases hst with h | h <;> rw [h] <;> decide
  refine ⟨hstat, ?_, ?_⟩
  · simp [Server.Read, chanRecv, hc1, hc2, Outcome.bind]
  · intro msgType message
    by_cases ht : msgType = 0
    · exact ⟨"Message type 0 is reserved", by simp [Server.Write, ht], fun h => absurd ht h⟩
    · by_cases hl : sc.conf.MaxMsgSize < (message.length : Int)
      · refine ⟨"Message exceeds maximum message length",
          by simp [Server.Write, ht, hconf, hl], fun _ h => ?_⟩
        exact absurd hl (not_lt.mpr h)
      · exact ⟨statusText st, by simp [Server.Write, ht, hconf, hl, hne], fun _ _ => rfl⟩

/-- C3 (the code at the failing input): Close called on the server StartServer
has just returned.  If the establishment goroutine has not yet reached its
first send, Close itself returns, and the goroutine then panics with "send on
closed channel" at `sc.received <- Listening status`, whatever the timer does;
if the goroutine is already parked on that send, the `close(sc.received)` of
Close wakes it with the same panic.  Either way the process ends, so no later
Read or Write returns. -/
theorem Close_kills_establishment (statusText : Status → String) (ev : TimerEvent) :
    StartServer (fun _ => none) "demo" defaultServerConfig = .ok freshServer
    ∧ freshServer.Close.2 = none
    ∧ startServer statusText freshServer.Close.1 none none ev
        = .panics "send on closed channel"
    ∧ (parkedServer statusText).Close.2 = some "send on closed channel" := by
  refine ⟨by rfl, by decide, ?_, ?_⟩
  · simp [startServer, Server.run, chanSend, Outcome.bind, freshServer, Server.Close, chanClose,
      makeChan]
  · simp [parkedServer, freshServer, Server.Close, chanClose, makeChan]

/-- C4 (the code at the failing input): on the server StartServer returns, the
first Close completes and the second Close panics with "close of closed
channel". -/
theorem Close_twice_panics :
    StartServer (fun _ => none) "demo" defaultServerConfig = .ok freshServer
    ∧ freshServer.Close.2 = none
    ∧ freshServer.Close.1.Close.2 = some "close of closed channel" :=
  ⟨by rfl, by decide, by decide⟩

/-- What does hold of a second Close: it leaves the server exactly as the first
Close left it, and it completes without a panic exactly when neither queue was
ever created (both channels nil); with a created queue it panics. -/
theorem Close_twice_same_state (sc : Server) :
    sc.Close.1.Close.1 = sc.Close.1
    ∧ (sc.Close.1.Close.2 = none ↔ sc.received = none ∧ sc.toWrite = none) := by
  rcases sc with ⟨nm, l, cn, st, r, cc, w, cf⟩
  cases l <;> cases cn <;> cases r with
  | none =>
    cases w with
    | none => simp [Server.Close]
    | some w =>
      rcases w with ⟨wc, wp⟩
      cases wc <;> simp [Server.Close, chanClose]
  | some r =>
    rcases r with ⟨rc, rp⟩
    cases rc <;> cases w with
    | none => simp [Server.Close, chanClose]
    | some w =>
      rcases w with ⟨wc, wp⟩
      cases wc <;> simp [Server.Close, chanClose]

/-! ## Theorems: timeout of the initial establishment -/

/-- C7 (the code at the failing input): a server started with Timeout = 2 s
whose timer expires before any client connects.  The establishment goroutine
returns; the status it leaves is Listening, not Timeout; the first Read yields
the Listening status message and the second Read yields the error
"Timed out waiting for client to connect", the status still being Listening. -/
theorem startServer_timeout_status_stays_Listening (statusText : Status → String) :
    StartServer (fun _ => none) "demo" { defaultServerConfig with Timeout := 2000000000 }
      = .ok timedServer
    ∧ ∃ sc sc1 sc2 m, startServer statusText timedServer none none .expired = .done sc
      ∧ sc.status = .Listening ∧ sc.status ≠ .Timeout
      ∧ sc.Read = .done (sc1, some m, none) ∧ m.Status = statusText .Listening
      ∧ sc1.Read = .done (sc2, none, some "Timed out waiting for client to connect")
      ∧ sc2.status = .Listening := by
  refine ⟨by rfl, ?_⟩
  refine ⟨{ timedServer with
              listen := some { closed := true }, status := .Listening, connChannel := true,
              received := some { closed := false, pending :=
                [{ err := none, MsgType := -1, Data := [], Status := statusText .Listening },
                 { err := some "Timed out waiting for client to connect", MsgType := -2,
                   Data := [], Status := "" }] } },
          { timedServer with
              listen := some { closed := true }, status := .Listening, connChannel := true,
              received := some { closed := false, pending :=
                [{ err := some "Timed out waiting for client to connect", MsgType := -2,
                   Data := [], Status := "" }] } },
          { timedServer with
              listen := some { closed := true }, status := .Listening, connChannel := true,
              received := some { closed := false, pending := [] } },
          { err := none, MsgType := -1, Data := [], Status := statusText .Listening },
          ?_, rfl, fun h => Status.noConfusion h, ?_, rfl, ?_, rfl⟩
  · simp [startServer, Server.run, Server.accepted, Server.connectionTimer, chanSend,
      Outcome.bind, timedServer, freshServer, makeChan, defaultServerConfig]
  · simp [Server.Read, chanRecv, Outcome.bind]
  · simp [Server.Read, chanRecv, Outcome.bind]

/-- The sibling path: when the same timer expires inside reConnect, the status
does become Timeout before the error is published. -/
theorem reConnect_timeout_sets_Timeout (statusText : Status → String) :
    ∃ sc, Server.reConnect statusText
        { timedServer with listen := some { closed := false }, status := .Connected } .expired
        = .done sc
      ∧ sc.status = .Timeout := by
  refine ⟨{ timedServer with
              listen := some { closed := true }, status := .Timeout,
              received := some { closed := false, pending :=
                [{ err := none, MsgType := -1, Data := [], Status := statusText .ReConnecting },
                 { err := none, MsgType := -1, Data := [], Status := statusText .Timeout },
                 { err := some "Timed out waiting for client to connect", MsgType := -2,
                   Data := [], Status := "" }] } }, ?_, rfl⟩
  simp [Server.reConnect, Server.accepted, Server.connectionTimer, chanSend, Outcome.bind,
    timedServer, freshServer, makeChan, defaultServerConfig]

/-- The other branch of the same select: a client is accepted before the timer
fires.  The accept loop sets Connected and publishes it, and run returns nil. -/
theorem startServer_connected (statusText : Status → String) :
    ∃ sc, startServer statusText timedServer none none .connected = .done sc
      ∧ sc.status = .Connected ∧ sc.conn = some { closed := false }
      ∧ sc.received = some { closed := false, pending :=
          [{ err := none, MsgType := -1, Data := [], Status := statusText .Listening },
           { err := none, MsgType := -1, Data := [], Status := statusText .Connected }] } := by
  refine ⟨{ timedServer with
              listen := some { closed := false }, conn := some { closed := false },
              status := .Connected, connChannel := true,
              received := some { closed := false, pending :=
                [{ err := none, MsgType := -1, Data := [], Status := statusText .Listening },
                 { err := none, MsgType := -1, Data := [], Status := statusText .Connected }] } },
          ?_, rfl, rfl, rfl⟩
  simp [startServer, Server.run, Server.accepted, Server.acceptLoop, Server.connectionTimer,
    chanSend, Outcome.bind, timedServer, freshServer, makeChan, defaultServerConfig]

/-! ## Lemmas: the wire codec -/

theorem intToBytes_length (n : Int) : (intToBytes n).length = 4 := rfl

theorem bytesToInt_intToBytes (n : Int) (h0 : 0 ≤ n) (h1 : n < 4294967296) :
    bytesToInt (intToBytes n) = n := by
  obtain ⟨k, rfl⟩ := Int.eq_ofNat_of_zero_le h0
  have hk : k < 4294967296 := by exact_mod_cast h1
  have hmod : ((k : Int) % 4294967296).toNat = k := by omega
  simp only [intToBytes, bytesToInt, byteOf, hmod]
  congr 1
  omega

/-! ## Lemmas: one Read -/

theorem connSize_cons (seg : List Byte) (rest : Inbound) :
    connSize (seg :: rest) = seg.length + 1 + connSize rest := by
  simp [connSize]

/-- A read keeps the buffer length and never adds to what is still to come; a
read into a non-empty buffer takes something away. -/
theorem connRead_length :
    ∀ (stream : Inbound) (buff b : List Byte) (rest : Inbound),
      connRead stream buff = some (b, rest) →
      b.length = buff.length ∧ connSize rest ≤ connSize stream
        ∧ (buff.length ≠ 0 → connSize rest < connSize stream) := by
  intro stream
  induction stream with
  | nil =>
    intro buff b rest h
    unfold connRead at h
    split at h
    · rename_i hb
      simp only [Option.some.injEq, Prod.mk.injEq] at h
      obtain ⟨rfl, rfl⟩ := h
      exact ⟨rfl, le_refl _, fun hne => absurd hb hne⟩
    · exact absurd h (by simp)
  | cons seg tl ih =>
    intro buff b rest h
    unfold connRead at h
    split at h
    · rename_i hb
      simp only [Option.some.injEq, Prod.mk.injEq] at h
      obtain ⟨rfl, rfl⟩ := h
      exact ⟨rfl, le_refl _, fun hne => absurd hb hne⟩
    · split at h
      · obtain ⟨h1, h2, h3⟩ := ih buff b rest h
        rw [connSize_cons]
        exact ⟨h1, by omega, fun hne => by have := h3 hne; omega⟩
      · rename_i hb hs
        simp only [Option.some.injEq, Prod.mk.injEq] at h
        obtain ⟨rfl, rfl⟩ := h
        simp only [connSize_cons, List.length_append, List.length_take, List.length_drop]
        omega

/-- A read whose buffer is as long as the bytes `p` at the front of the first
segment fills the buffer with `p`. -/
theorem connRead_exact (p more : List Byte) (rest : Inbound) (buff : List Byte)
    (h : buff.length = p.length) :
    connRead ((p ++ more) :: rest) buff = some (p, more :: rest) := by
  unfold connRead
  by_cases hb : buff.length = 0
  · have hp : p = [] := List.length_eq_zero.mp (h ▸ hb)
    have hbuf : buff = [] := List.length_eq_zero.mp hb
    simp [hp, hbuf]
  · have hp : p.length ≠ 0 := h ▸ hb
    have hs : (p ++ more).length ≠ 0 := by simp only [List.length_append]; omega
    have hd : List.drop (p ++ more).length buff = [] := by
      apply List.drop_eq_nil_of_le
      simp only [List.length_append]; omega
    rw [if_neg hb, if_neg hs, h, List.take_left, List.drop_left, hd, List.append_nil]

/-! ## Lemmas: the read loop -/

theorem publish_next {sc sc1 : Server} {m : Message} {b b1 : List Byte} {s s1 : Inbound}
    (h : sc.publish m b s = .next sc1 b1 s1) : b1 = b ∧ s1 = s := by
  unfold Server.publish at h
  split at h
  · simp only [Step.next.injEq] at h
    exact ⟨h.2.1.symm, h.2.2.symm⟩
  · exact absurd h (by simp)
  · exact absurd h (by simp)

theorem deliver_next {sc sc1 : Server} {msg b b1 : List Byte} {s s1 : Inbound}
    (h : sc.deliver msg b s = .next sc1 b1 s1) : b1 = b ∧ s1 = s := by
  unfold Server.deliver at h
  split at h
  · exact absurd h (by simp)
  · split at h
    · simp only [Step.next.injEq] at h
      exact ⟨h.2.1.symm, h.2.2.symm⟩
    · exact publish_next h

theorem readData_ok {sc : Server} {stream rest : Inbound} {buff b : List Byte}
    (h : sc.readData stream buff = .ok b rest) : connRead stream buff = some (b, rest) := by
  unfold Server.readData at h
  split at h
  · split at h <;> exact absurd h (by simp)
  · rename_i b0 r0 heq
    simp only [ReadData.ok.injEq] at h
    rw [heq, h.1, h.2]

/-- An iteration that goes round again keeps the length of the length buffer
and has taken something from the stream. -/
theorem readFrame_next {sc sc1 : Server} {decrypt : List Byte → List Byte × Option String}
    {bLen b1 : List Byte} {stream s1 : Inbound} (hb : bLen.length ≠ 0)
    (h : sc.readFrame decrypt bLen stream = .next sc1 b1 s1) :
    b1.length = bLen.length ∧ connSize s1 < connSize stream := by
  unfold Server.readFrame at h
  split at h
  · exact absurd h (by simp)
  · rename_i b0 r0 h0
    obtain ⟨hl0, _, hlt0⟩ := connRead_length _ _ _ _ (readData_ok h0)
    simp only at h
    split at h
    · exact absurd h (by simp)
    · rename_i m0 r1 h1
      obtain ⟨_, hle1, _⟩ := connRead_length _ _ _ _ (readData_ok h1)
      have key : b1 = b0 ∧ s1 = r1 := by
        split at h
        · split at h
          · exact publish_next h
          · exact deliver_next h
        · exact deliver_next h
      obtain ⟨rfl, rfl⟩ := key
      exact ⟨hl0, lt_of_le_of_lt hle1 (hlt0 hb)⟩

/-- The bound on the number of iterations is never reached: any two bounds
above the size of the stream give the same run of the loop. -/
theorem readLoop_fuel (decrypt : List Byte → List Byte × Option String) :
    ∀ (n m : Nat) (sc : Server) (bLen : List Byte) (stream : Inbound), bLen.length ≠ 0 →
      connSize stream < n → connSize stream < m →
      Server.readLoop decrypt n sc bLen stream = Server.readLoop decrypt m sc bLen stream := by
  intro n
  induction n with
  | zero => intro m sc bLen stream _ h; exact absurd h (Nat.not_lt_zero _)
  | succ n ih =>
    intro m sc bLen stream hb hn hm
    cases m with
    | zero => exact absurd hm (Nat.not_lt_zero _)
    | succ m =>
      simp only [Server.readLoop]
      cases hstep : sc.readFrame decrypt bLen stream with
      | stop sc1 e => rfl
      | next sc1 b1 s1 =>
        obtain ⟨hl, hlt⟩ := readFrame_next hb hstep
        exact ih m sc1 b1 s1 (hl ▸ hb) (by omega) (by omega)

theorem publish_stop_ne_fuel {sc sc1 : Server} {m : Message} {b : List Byte} {s : Inbound}
    (h : sc.publish m b s = .stop sc1 .fuel) : False := by
  unfold Server.publish at h
  split at h <;> simp at h

theorem deliver_stop_ne_fuel {sc sc1 : Server} {msg b : List Byte} {s : Inbound}
    (h : sc.deliver msg b s = .stop sc1 .fuel) : False := by
  unfold Server.deliver at h
  split at h
  · simp at h
  · split at h
    · simp at h
    · exact publish_stop_ne_fuel h

theorem readFrame_stop_ne_fuel {sc sc1 : Server}
    {decrypt : List Byte → List Byte × Option String} {bLen : List Byte} {stream : Inbound}
    (h : sc.readFrame decrypt bLen stream = .stop sc1 .fuel) : False := by
  unfold Server.readFrame at h
  split at h
  · simp only [Step.stop.injEq] at h
    split at h <;> exact absurd h.2 (by simp)
  · simp only at h
    split at h
    · simp only [Step.stop.injEq] at h
      split at h <;> exact absurd h.2 (by simp)
    · split at h
      · split at h
        · exact publish_stop_ne_fuel h
        · exact deliver_stop_ne_fuel h
      · exact deliver_stop_ne_fuel h

/-- The loop never ends for lack of iterations. -/
theorem readLoop_exit_ne_fuel (decrypt : List Byte → List Byte × Option String) :
    ∀ (n : Nat) (sc : Server) (bLen : List Byte) (stream : Inbound), bLen.length ≠ 0 →
      connSize stream < n → (Server.readLoop decrypt n sc bLen stream).exit ≠ .fuel := by
  intro n
  induction n with
  | zero => intro sc bLen stream _ h; exact absurd h (Nat.not_lt_zero _)
  | succ n ih =>
    intro sc bLen stream hb hn
    simp only [Server.readLoop]
    cases hstep : sc.readFrame decrypt bLen stream with
    | stop sc1 e =>
      intro he
      simp only at he
      subst he
      exact readFrame_stop_ne_fuel hstep
    | next sc1 b1 s1 =>
      obtain ⟨hl, hlt⟩ := readFrame_next hb hstep
      exact ih sc1 b1 s1 (hl ▸ hb) (by omega)

/-- The read task always ends for a reason of its own, never for lack of
iterations. -/
theorem read_exit_ne_fuel (sc : Server) (decrypt : List Byte → List Byte × Option String)
    (stream : Inbound) : (sc.read decrypt stream).exit ≠ .fuel :=
  readLoop_exit_ne_fuel decrypt _ sc _ stream (by simp) (Nat.lt_succ_self _)

/-- The loop body on a stream whose first segment starts with a whole frame: a
4-byte length field `lp` and the `payload` of that length.  Both reads fill
their buffers. -/
theorem readFrame_whole (sc : Server) (decrypt : List Byte → List Byte × Option String)
    (bLen lp payload more : List Byte) (rest : Inbound) (hb : bLen.length = 4)
    (hlp : lp.length = 4) (hlen : bytesToInt lp = (payload.length : Int)) :
    sc.readFrame decrypt bLen ((lp ++ payload ++ more) :: rest) =
      if sc.conf.Encryption then
        match decrypt payload with
        | (_, some err) =>
          sc.publish { err := some err, MsgType := -2, Data := [], Status := "" } lp
            (more :: rest)
        | (msgFinal, none) => sc.deliver msgFinal lp (more :: rest)
      else sc.deliver payload lp (more :: rest) := by
  have h1 : connRead ((lp ++ payload ++ more) :: rest) bLen
      = some (lp, (payload ++ more) :: rest) := by
    rw [List.append_assoc]
    exact connRead_exact lp (payload ++ more) rest bLen (hb.trans hlp.symm)
  have h2 : connRead ((payload ++ more) :: rest)
      (List.replicate (bytesToInt lp).toNat (0 : Byte)) = some (payload, more :: rest) := by
    apply connRead_exact
    rw [List.length_replicate, hlen]
    rfl
  simp only [Server.readFrame, Server.readData, h1, h2]

/-- A run whose first iteration stops is that stop. -/
theorem readFrom_stop {sc sc1 : Server} {decrypt : List Byte → List Byte × Option String}
    {bLen : List Byte} {stream : Inbound} {e : ReadExit}
    (h : sc.readFrame decrypt bLen stream = .stop sc1 e) :
    sc.readFrom decrypt bLen stream = { server := sc1, exit := e } := by
  unfold Server.readFrom
  simp only [Server.readLoop, h]

/-- A run whose first iteration goes round again is the run from there. -/
theorem readFrom_next {sc sc1 : Server} {decrypt : List Byte → List Byte × Option String}
    {bLen b1 : List Byte} {stream s1 : Inbound} (hb : bLen.length ≠ 0)
    (h : sc.readFrame decrypt bLen stream = .next sc1 b1 s1) :
    sc.readFrom decrypt bLen stream = sc1.readFrom decrypt b1 s1 := by
  obtain ⟨hl, hlt⟩ := readFrame_next hb h
  unfold Server.readFrom
  simp only [Server.readLoop, h]
  exact readLoop_fuel decrypt _ _ sc1 b1 s1 (hl ▸ hb) hlt (Nat.lt_succ_self _)

/-- The loop body once both reads have returned: `bLen1` is what the first read
left in the length buffer, `msgRecvd` what the second read left in the payload
buffer (however many bytes the transport gave to each), and `plain` the decoded
payload.  A type of 0 publishes nothing, any other type publishes exactly one
Message; either way the loop goes round again on what is left of the stream. -/
theorem readFrame_decoded (sc : Server) (decrypt : List Byte → List Byte × Option String)
    (bLen bLen1 msgRecvd plain : List Byte) (stream s1 s2 : Inbound)
    (hlen : connRead stream bLen = some (bLen1, s1))
    (hpay : connRead s1 (List.replicate (bytesToInt bLen1).toNat 0) = some (msgRecvd, s2))
    (henc : sc.conf.Encryption = true → decrypt msgRecvd = (plain, none))
    (hclr : sc.conf.Encryption = false → plain = msgRecvd)
    (h4 : 4 ≤ plain.length)
    (hrecv : bytesToInt (plain.take 4) ≠ 0 → ∃ c, sc.received = some c ∧ c.closed = false) :
    sc.readFrame decrypt bLen stream =
      if bytesToInt (plain.take 4) = 0 then .next sc bLen1 s2
      else
        .next
          { sc with received := sc.received.map fun c =>
              { c with pending := c.pending ++
                [{ err := none, MsgType := bytesToInt (plain.take 4), Data := plain.drop 4,
                   Status := "" }] } }
          bLen1 s2 := by
  have hframe : sc.readFrame decrypt bLen stream = sc.deliver plain bLen1 s2 := by
    simp only [Server.readFrame, Server.readData, hlen, hpay]
    cases he : sc.conf.Encryption with
    | true => simp only [if_true, henc he]
    | false => simp only [Bool.false_eq_true, if_false, hclr he]
  have h4n : ¬ plain.length < 4 := by omega
  rw [hframe]
  simp only [Server.deliver, h4n, if_false]
  by_cases h0 : bytesToInt (plain.take 4) = 0
  · simp only [h0, if_true]
  · obtain ⟨c, hc1, hc2⟩ := hrecv h0
    simp only [h0, if_false, Server.publish, chanSend, hc1, hc2, Bool.false_eq_true,
      Option.map_some']

/-- The read loop on a stream whose first segment starts with a whole frame
whose decoded payload `plain` has at least four bytes: the run is the run on
what follows the frame, from the server with nothing published (type 0) or one
Message published (any other type). -/
theorem readFrom_decoded (sc : Server) (decrypt : List Byte → List Byte × Option String)
    (bLen lp payload plain more : List Byte) (rest : Inbound) (hb : bLen.length = 4)
    (hlp : lp.length = 4) (hlen : bytesToInt lp = (payload.length : Int))
    (henc : sc.conf.Encryption = true → decrypt payload = (plain, none))
    (hclr : sc.conf.Encryption = false → plain = payload)
    (h4 : 4 ≤ plain.length)
    (hrecv : bytesToInt (plain.take 4) ≠ 0 → ∃ c, sc.received = some c ∧ c.closed = false) :
    sc.readFrom decrypt bLen ((lp ++ payload ++ more) :: rest) =
      if bytesToInt (plain.take 4) = 0 then sc.readFrom decrypt lp (more :: rest)
      else
        Server.readFrom
          { sc with received := sc.received.map fun c =>
              { c with pending := c.pending ++
                [{ err := none, MsgType := bytesToInt (plain.take 4), Data := plain.drop 4,
                   Status := "" }] } }
          decrypt lp (more :: rest) := by
  have h1 : connRead ((lp ++ payload ++ more) :: rest) bLen
      = some (lp, (payload ++ more) :: rest) := by
    rw [List.append_assoc]
    exact connRead_exact lp (payload ++ more) rest bLen (hb.trans hlp.symm)
  have h2 : connRead ((payload ++ more) :: rest)
      (List.replicate (bytesToInt lp).toNat (0 : Byte)) = some (payload, more :: rest) := by
    apply connRead_exact
    rw [List.length_replicate, hlen]
    rfl
  have hstep := readFrame_decoded sc decrypt bLen lp payload plain _ _ _ h1 h2 henc hclr h4 hrecv
  have hb0 : bLen.length ≠ 0 := by omega
  by_cases h0 : bytesToInt (plain.take 4) = 0
  · simp only [h0, if_true] at hstep ⊢
    exact readFrom_next hb0 hstep
  · simp only [h0, if_false] at hstep ⊢
    exact readFrom_next hb0 hstep

/-- The read loop at the end of the stream: the read fails, and the task ends
quietly when a local Close is in progress and asks for a reconnect otherwise. -/
theorem readFrom_empty (sc : Server) (decrypt : List Byte → List Byte × Option String)
    (bLen : List Byte) (hb : bLen.length = 4) :
    sc.readFrom decrypt bLen [[]] =
      if sc.status = .Closing then { server := { sc with status := .Closed }, exit := .closed }
      else { server := sc, exit := .reconnect } := by
  have hb0 : ¬ bLen.length = 0 := by omega
  by_cases hs : sc.status = .Closing
  · rw [if_pos hs]
    apply readFrom_stop
    simp [Server.readFrame, Server.readData, connRead, hb0, hs]
  · rw [if_neg hs]
    apply readFrom_stop
    simp [Server.readFrame, Server.readData, connRead, hb0, hs]

/-- A single segment holding a sequence of whole frames (length field, payload,
decoded payload of at least four bytes each): the loop publishes one Message
for every frame of non-zero type, in order, and is then at the end of the
stream. -/
theorem readFrom_frames (decrypt : List Byte → List Byte × Option String) (enc : Bool) :
    ∀ (frames : List (List Byte × List Byte × List Byte)) (sc : Server) (c : Chan)
      (bLen : List Byte),
      bLen.length = 4 → sc.conf.Encryption = enc → sc.received = some c → c.closed = false →
      (∀ f ∈ frames, f.1.length = 4 ∧ bytesToInt f.1 = (f.2.1.length : Int)
        ∧ (enc = true → decrypt f.2.1 = (f.2.2, none)) ∧ (enc = false → f.2.2 = f.2.1)
        ∧ 4 ≤ f.2.2.length) →
      ∃ b : List Byte, b.length = 4 ∧
        sc.readFrom decrypt bLen [frames.foldr (fun f acc => f.1 ++ f.2.1 ++ acc) []] =
          Server.readFrom
            { sc with received := some { c with pending := c.pending ++
                (frames.filterMap fun f =>
                  if bytesToInt (f.2.2.take 4) = 0 then none
                  else some { err := none, MsgType := bytesToInt (f.2.2.take 4),
                              Data := f.2.2.drop 4, Status := "" }) } }
            decrypt b [[]] := by
  intro frames
  induction frames with
  | nil =>
    intro sc c bLen hb _ hrecv _ _
    refine ⟨bLen, hb, ?_⟩
    have : sc = { sc with received := some { c with pending := c.pending ++ [] } } := by
      rcases sc with ⟨nm, l, cn, st, r, cc, w, cf⟩
      simp only at hrecv
      simp [hrecv]
    simp only [List.foldr_nil, List.filterMap_nil]
    rw [← this]
  | cons f fs ih =>
    intro sc c bLen hb henc hrecv hopen hwf
    obtain ⟨hlp, hlen, hdec, hclr, h4⟩ := hwf f (List.mem_cons_self _ _)
    have hstep := readFrom_decoded sc decrypt bLen f.1 f.2.1 f.2.2
      (fs.foldr (fun f acc => f.1 ++ f.2.1 ++ acc) []) [] hb hlp hlen
      (fun h => hdec (henc ▸ h)) (fun h => hclr (henc ▸ h)) h4 (fun _ => ⟨c, hrecv, hopen⟩)
    simp only [List.foldr_cons]
    rw [hstep]
    by_cases h0 : bytesToInt (f.2.2.take 4) = 0
    · obtain ⟨b, hb4, hrest⟩ := ih sc c f.1 hlp henc hrecv hopen
        (fun g hg => hwf g (List.mem_cons_of_mem _ hg))
      refine ⟨b, hb4, ?_⟩
      simp only [h0, if_true, List.filterMap_cons]
      exact hrest
    · obtain ⟨b, hb4, hrest⟩ := ih
        { sc with received := some { c with pending := c.pending ++
            [{ err := none, MsgType := bytesToInt (f.2.2.take 4), Data := f.2.2.drop 4,
               Status := "" }] } }
        { c with pending := c.pending ++
            [{ err := none, MsgType := bytesToInt (f.2.2.take 4), Data := f.2.2.drop 4,
               Status := "" }] }
        f.1 hlp henc rfl hopen (fun g hg => hwf g (List.mem_cons_of_mem _ hg))
      refine ⟨b, hb4, ?_⟩
      simp only [h0, if_false, List.filterMap_cons, hrecv, Option.map_some']
      rw [hrest]
      simp only [List.append_assoc, List.singleton_append]

/-- Unencrypted frames written by the write pipeline, read back by the read
loop: every message is published once, in order, and the loop is then at
the end of the stream. -/
theorem readFrom_write (snd : Server) (encrypt decrypt : List Byte → List Byte × Option String)
    (hs : snd.conf.Encryption = false) :
    ∀ (msgs : List Message) (rcv : Server) (c : Chan) (bLen : List Byte),
      bLen.length = 4 → rcv.conf.Encryption = false → rcv.received = some c →
      c.closed = false →
      (∀ m ∈ msgs, 0 < m.MsgType ∧ m.MsgType < 4294967296
        ∧ 4 + (m.Data.length : Int) < 4294967296) →
      ∃ b : List Byte, b.length = 4 ∧
        rcv.readFrom decrypt bLen [snd.write encrypt msgs] =
          Server.readFrom
            { rcv with received := some { c with pending := c.pending ++ msgs.map fun m =>
                { err := none, MsgType := m.MsgType, Data := m.Data, Status := "" } } }
            decrypt b [[]] := by
  intro msgs
  induction msgs with
  | nil =>
    intro rcv c bLen hb _ hrecv _ _
    refine ⟨bLen, hb, ?_⟩
    have : rcv = { rcv with received := some { c with pending := c.pending ++ [] } } := by
      rcases rcv with ⟨nm, l, cn, st, r, cc, w, cf⟩
      simp only at hrecv
      simp [hrecv]
    simp only [Server.write, List.map_nil]
    rw [← this]
  | cons m queue ih =>
    intro rcv c bLen hb hr hrecv hopen hm
    obtain ⟨ht0, ht1, hl⟩ := hm m (List.mem_cons_self _ _)
    have htype : bytesToInt (intToBytes m.MsgType) = m.MsgType :=
      bytesToInt_intToBytes m.MsgType (le_of_lt ht0) ht1
    have hplen : ((intToBytes m.MsgType ++ m.Data).length : Int) = 4 + (m.Data.length : Int) := by
      simp only [List.length_append, intToBytes_length]
      push_cast
      ring
    have hlenrt : bytesToInt (intToBytes ((intToBytes m.MsgType ++ m.Data).length : Int))
        = ((intToBytes m.MsgType ++ m.Data).length : Int) :=
      bytesToInt_intToBytes _ (Int.natCast_nonneg _) (by rw [hplen]; exact hl)
    have htake : (intToBytes m.MsgType ++ m.Data).take 4 = intToBytes m.MsgType := by
      rw [← intToBytes_length m.MsgType, List.take_left]
    have hdrop : (intToBytes m.MsgType ++ m.Data).drop 4 = m.Data := by
      rw [← intToBytes_length m.MsgType, List.drop_left]
    have hne : bytesToInt ((intToBytes m.MsgType ++ m.Data).take 4) ≠ 0 := by
      rw [htake, htype]
      omega
    have hstep := readFrom_decoded rcv decrypt bLen
      (intToBytes ((intToBytes m.MsgType ++ m.Data).length : Int))
      (intToBytes m.MsgType ++ m.Data) (intToBytes m.MsgType ++ m.Data)
      (snd.write encrypt queue) [] hb (intToBytes_length _) hlenrt
      (fun h => absurd (hr ▸ h) (by simp)) (fun _ => rfl)
      (by simp only [List.length_append, intToBytes_length]; omega)
      (fun _ => ⟨c, hrecv, hopen⟩)
    have hm0 : m.MsgType ≠ 0 := by omega
    simp only [htake, hdrop, htype, hm0, if_false, hrecv, Option.map_some'] at hstep
    obtain ⟨b, hb4, hrest⟩ := ih
      { rcv with received := some { c with pending := c.pending ++
          [{ err := none, MsgType := m.MsgType, Data := m.Data, Status := "" }] } }
      { c with pending := c.pending ++
          [{ err := none, MsgType := m.MsgType, Data := m.Data, Status := "" }] }
      (intToBytes ((intToBytes m.MsgType ++ m.Data).length : Int))
      (intToBytes_length _) hr rfl hopen
      (fun m1 h1 => hm m1 (List.mem_cons_of_mem _ h1))
    refine ⟨b, hb4, ?_⟩
    simp only [Server.write, hs, Bool.false_eq_true, if_false]
    rw [hstep, hrest]
    simp only [List.map_cons, List.append_assoc, List.singleton_append]

/-! ## Theorems: the read pipeline -/

/-- C6: for every inbound frame as the read task receives it (the length field
left by its first read, the payload left by its second read, decrypted when
encryption is on, with its four type bytes), whatever the transport gave to
each read: when the decoded type is 0 the loop body publishes nothing and goes
round to the next frame with the server unchanged; when the type is not 0 it
publishes exactly one Message carrying that type and the payload bytes after
the first four, and goes round to the next frame.  And for a whole run over
frames that arrive complete: the received queue gets exactly one Message per
frame of non-zero type, in order, nothing for the frames of type 0, and the
task then ends at the end of the stream. -/
theorem read_decoded_frame (sc : Server) (decrypt : List Byte → List Byte × Option String) :
    (∀ (bLen bLen1 msgRecvd plain : List Byte) (stream s1 s2 : Inbound),
        connRead stream bLen = some (bLen1, s1) →
        connRead s1 (List.replicate (bytesToInt bLen1).toNat 0) = some (msgRecvd, s2) →
        (sc.conf.Encryption = true → decrypt msgRecvd = (plain, none)) →
        (sc.conf.Encryption = false → plain = msgRecvd) →
        4 ≤ plain.length →
        (bytesToInt (plain.take 4) ≠ 0 → ∃ c, sc.received = some c ∧ c.closed = false) →
        sc.readFrame decrypt bLen stream =
          if bytesToInt (plain.take 4) = 0 then .next sc bLen1 s2
          else
            .next
              { sc with received := sc.received.map fun c =>
                  { c with pending := c.pending ++
                    [{ err := none, MsgType := bytesToInt (plain.take 4), Data := plain.drop 4,
                       Status := "" }] } }
              bLen1 s2)
    ∧ (∀ (c : Chan) (frames : List (List Byte × List Byte × List Byte)),
        sc.received = some c → c.closed = false →
        (∀ f ∈ frames, f.1.length = 4 ∧ bytesToInt f.1 = (f.2.1.length : Int)
          ∧ (sc.conf.Encryption = true → decrypt f.2.1 = (f.2.2, none))
          ∧ (sc.conf.Encryption = false → f.2.2 = f.2.1)
          ∧ 4 ≤ f.2.2.length) →
        sc.read decrypt [frames.foldr (fun f acc => f.1 ++ f.2.1 ++ acc) []] =
          if sc.status = .Closing then
            { server :=
                { sc with status := .Closed, received := some { c with pending := c.pending ++
                    (frames.filterMap fun f =>
                      if bytesToInt (f.2.2.take 4) = 0 then none
                      else some { err := none, MsgType := bytesToInt (f.2.2.take 4),
                                  Data := f.2.2.drop 4, Status := "" }) } },
              exit := .closed }
          else
            { server :=
                { sc with received := some { c with pending := c.pending ++
                    (frames.filterMap fun f =>
                      if bytesToInt (f.2.2.take 4) = 0 then none
                      else some { err := none, MsgType := bytesToInt (f.2.2.take 4),
                                  Data := f.2.2.drop 4, Status := "" }) } },
              exit := .reconnect }) := by
  refine ⟨?_, ?_⟩
  · intro bLen bLen1 msgRecvd plain stream s1 s2 hlen hpay henc hclr h4 hrecv
    exact readFrame_decoded sc decrypt bLen bLen1 msgRecvd plain stream s1 s2 hlen hpay henc
      hclr h4 hrecv
  · intro c frames hrecv hopen hwf
    obtain ⟨b, hb, hread⟩ := readFrom_frames decrypt sc.conf.Encryption frames sc c
      (List.replicate 4 0) (by simp) rfl hrecv hopen hwf
    unfold Server.read
    rw [hread, readFrom_empty _ decrypt b hb]

/-- Witness of `read_decoded_frame`: the loop body on a frame of type 0 that is
followed by one more byte; the loop body with encryption on (a cipher that
opens a payload by dropping its first two bytes) on a frame of type 9; and a
whole run over a frame of type 0 followed by a frame of type 9 with one data
byte. -/
theorem read_decoded_frame_witness :
    connectedServer.readFrame (fun b => (b, none)) [0, 0, 0, 0] [[0, 0, 0, 4, 0, 0, 0, 0, 1]]
      = .next connectedServer [0, 0, 0, 4] [[1]]
    ∧ sealedServer.readFrame (fun b => (b.drop 2, none)) [0, 0, 0, 0]
        [[0, 0, 0, 7, 1, 2, 0, 0, 0, 9, 65]]
      = .next { sealedServer with received := some { makeChan with pending :=
                  [{ err := none, MsgType := 9, Data := [65], Status := "" }] } }
          [0, 0, 0, 7] [[]]
    ∧ connectedServer.read (fun b => (b, none))
        [[0, 0, 0, 4, 0, 0, 0, 0, 0, 0, 0, 5, 0, 0, 0, 9, 65]]
      = { server := { connectedServer with received := some { makeChan with pending :=
                        [{ err := none, MsgType := 9, Data := [65], Status := "" }] } },
          exit := .reconnect } :=
  ⟨(read_decoded_frame connectedServer (fun b => (b, none))).1
      [0, 0, 0, 0] [0, 0, 0, 4] [0, 0, 0, 0] [0, 0, 0, 0] [[0, 0, 0, 4, 0, 0, 0, 0, 1]]
      [[0, 0, 0, 0, 1]] [[1]] (by decide) (by decide) (fun h => absurd h (by decide))
      (fun _ => rfl) (by decide) (fun h => absurd rfl h),
   (read_decoded_frame sealedServer (fun b => (b.drop 2, none))).1
      [0, 0, 0, 0] [0, 0, 0, 7] [1, 2, 0, 0, 0, 9, 65] [0, 0, 0, 9, 65]
      [[0, 0, 0, 7, 1, 2, 0, 0, 0, 9, 65]] [[1, 2, 0, 0, 0, 9, 65]] [[]]
      (by decide) (by decide) (fun _ => rfl) (fun h => absurd h (by decide)) (by decide)
      (fun _ => ⟨makeChan, rfl, rfl⟩),
   (read_decoded_frame connectedServer (fun b => (b, none))).2 makeChan
      [([0, 0, 0, 4], [0, 0, 0, 0], [0, 0, 0, 0]),
       ([0, 0, 0, 5], [0, 0, 0, 9, 65], [0, 0, 0, 9, 65])]
      rfl rfl (by decide)⟩

/-- A short read in the middle of a frame: the peer sends the frame of type 9
with data byte 65 and the transport hands over its first seven bytes, then the
last two.  The second Read returns three of the five payload bytes, the count
is not looked at, and the frame is taken for one of type 0. -/
theorem short_read_misframes :
    connectedServer.readFrame (fun b => (b, none)) [0, 0, 0, 0]
        [[0, 0, 0, 5, 0, 0, 0], [9, 65]]
      = .next connectedServer [0, 0, 0, 5] [[], [9, 65]] := by
  decide

/-- A frame whose length field is below 4, in unencrypted mode: the loop body
panics at `msgRecvd[:4]` whatever follows. -/
theorem readFrame_short_panics (sc : Server) (decrypt : List Byte → List Byte × Option String)
    (bLen lp payload more : List Byte) (rest : Inbound) (hb : bLen.length = 4)
    (hlp : lp.length = 4) (hlen : bytesToInt lp = (payload.length : Int))
    (hshort : payload.length < 4) (hclr : sc.conf.Encryption = false) :
    sc.readFrame decrypt bLen ((lp ++ payload ++ more) :: rest)
      = .stop sc (.panic "slice bounds out of range") := by
  rw [readFrame_whole sc decrypt bLen lp payload more rest hb hlp hlen]
  simp [hclr, Server.deliver, hshort]

/-- C10 (the code at failing inputs): in unencrypted mode a frame with length
field 1, or with length field 0, makes the read task panic with a slice out of
range and publishes nothing; in encrypted mode so does a frame whose decrypted
plaintext has one byte. -/
theorem read_short_frame_panics :
    connectedServer.read (fun b => (b, none)) [[0, 0, 0, 1, 65]]
      = { server := connectedServer, exit := .panic "slice bounds out of range" }
    ∧ connectedServer.read (fun b => (b, none)) [[0, 0, 0, 0]]
      = { server := connectedServer, exit := .panic "slice bounds out of range" }
    ∧ Server.read { connectedServer with conf := { defaultServerConfig with Encryption := true } }
        (fun _ => ([7], none)) [[0, 0, 0, 2, 1, 2]]
      = { server := { connectedServer with conf := { defaultServerConfig with Encryption := true } },
          exit := .panic "slice bounds out of range" } := by
  refine ⟨by decide, by decide, by decide⟩

/-! ## Lemmas: a frame longer than the length field can say -/

theorem write_single (sc : Server) (enc : List Byte → List Byte × Option String)
    (m : Message) (hs : sc.conf.Encryption = false) :
    sc.write enc [m] = intToBytes (((intToBytes m.MsgType ++ m.Data).length : Nat) : Int)
      ++ (intToBytes m.MsgType ++ m.Data) ++ [] := by
  simp only [Server.write, hs, Bool.false_eq_true, if_false]

theorem big_frame_written (enc : List Byte → List Byte × Option String) :
    bigServer.write enc
        [{ err := none, MsgType := 7, Data := List.replicate 4294967292 0, Status := "" }]
      = [0, 0, 0, 0] ++ [] ++ ([0, 0, 0, 7] ++ List.replicate 4294967292 0 ++ []) := by
  have hlen : intToBytes (((intToBytes 7 ++ List.replicate 4294967292 (0 : Byte)).length : Nat) : Int)
      = [0, 0, 0, 0] := by
    rw [List.length_append, intToBytes_length, List.length_replicate]
    rfl
  have h7 : intToBytes 7 = [0, 0, 0, 7] := rfl
  rw [write_single bigServer enc _ rfl]
  show intToBytes (((intToBytes 7 ++ List.replicate 4294967292 (0 : Byte)).length : Nat) : Int)
      ++ (intToBytes 7 ++ List.replicate 4294967292 (0 : Byte)) ++ [] = _
  rw [hlen, h7]
  rfl

theorem big_frame_read_panics (enc dec : List Byte → List Byte × Option String) :
    (bigServer.read dec [bigServer.write enc
        [{ err := none, MsgType := 7, Data := List.replicate 4294967292 0, Status := "" }]])
      = { server := bigServer, exit := .panic "slice bounds out of range" } := by
  rw [big_frame_written]
  exact readFrom_stop (readFrame_short_panics bigServer dec (List.replicate 4 0) [0, 0, 0, 0] []
    ([0, 0, 0, 7] ++ List.replicate 4294967292 0 ++ []) [] rfl rfl rfl (by decide) rfl)

theorem exists_four (l : List Byte) (h : l.length = 4) : ∃ a b c d, l = [a, b, c, d] := by
  match l, h with
  | [a, b, c, d], _ => exact ⟨a, b, c, d, rfl⟩

/-- No choice of the two absent helpers carries every positive Go int through a
4-byte field: whatever `enc` lays out in four bytes and whatever `dec` reads
back, some positive type of at most 2^32 + 1 does not survive. -/
theorem four_bytes_lose_some_type (enc : Int → List Byte) (dec : List Byte → Int)
    (hlen : ∀ n, (enc n).length = 4) :
    ∃ t : Int, 0 < t ∧ t ≤ 4294967297 ∧ dec (enc t) ≠ t := by
  by_contra hcon
  push_neg at hcon
  let f : Fin 4294967297 → Byte × Byte × Byte × Byte := fun i =>
    ((enc ((i.val : Int) + 1)).getD 0 0, (enc ((i.val : Int) + 1)).getD 1 0,
      (enc ((i.val : Int) + 1)).getD 2 0, (enc ((i.val : Int) + 1)).getD 3 0)
  have hcard : Fintype.card (Byte × Byte × Byte × Byte) < Fintype.card (Fin 4294967297) := by
    simp only [Fintype.card_prod, Fintype.card_fin]
    norm_num
  obtain ⟨x, y, hxy, hf⟩ := Fintype.exists_ne_map_eq_of_card_lt f hcard
  obtain ⟨a, b, c, d, hx⟩ := exists_four _ (hlen ((x.val : Int) + 1))
  obtain ⟨a1, b1, c1, d1, hy⟩ := exists_four _ (hlen ((y.val : Int) + 1))
  have henc : enc ((x.val : Int) + 1) = enc ((y.val : Int) + 1) := by
    simp only [f, hx, hy, List.getD_cons_zero, List.getD_cons_succ, Prod.mk.injEq] at hf
    obtain ⟨r1, r2, r3, r4⟩ := hf
    rw [hx, hy, r1, r2, r3, r4]
  have hx1 := hcon ((x.val : Int) + 1) (by omega) (by have := x.isLt; omega)
  have hy1 := hcon ((y.val : Int) + 1) (by omega) (by have := y.isLt; omega)
  rw [henc, hy1] at hx1
  apply hxy
  apply Fin.ext
  omega

/-! ## Theorems: the round trip -/

/-- C5 (as stated, refuted): msgType 4294967296 is greater than 0 and the
empty data is within MaxMsgSize, yet the 4-byte type field of the written
frame is 0 and the read pipeline publishes nothing for it; and with
MaxMsgSize = 2^32 a message of 2^32 - 4 data bytes is within MaxMsgSize, yet
the 4-byte length field of its frame is 0 and the read task panics on it. -/
theorem roundtrip_fails_beyond_32_bits :
    ((0 : Int) < 4294967296
      ∧ ((([] : List Byte).length : Nat) : Int) ≤ connectedServer.conf.MaxMsgSize
      ∧ connectedServer.write (fun b => (b, none))
          [{ err := none, MsgType := 4294967296, Data := [], Status := "" }]
        = [0, 0, 0, 4, 0, 0, 0, 0]
      ∧ (connectedServer.read (fun b => (b, none))
          [connectedServer.write (fun b => (b, none))
            [{ err := none, MsgType := 4294967296, Data := [], Status := "" }]]).server.received
        = some { closed := false, pending := [] })
    ∧ ((0 : Int) < 7
      ∧ (((List.replicate 4294967292 (0 : Byte)).length : Nat) : Int) ≤ bigServer.conf.MaxMsgSize
      ∧ bigServer.read (fun b => (b, none))
          [bigServer.write (fun b => (b, none))
            [{ err := none, MsgType := 7, Data := List.replicate 4294967292 0, Status := "" }]]
        = { server := bigServer, exit := .panic "slice bounds out of range" }) := by
  refine ⟨⟨by decide, by decide, by decide, by decide⟩, by decide, ?_, ?_⟩
  · rw [List.length_replicate]
    decide
  · exact big_frame_read_panics _ _

/-- C5 (amended): in unencrypted mode, the write pipeline emits for every
message the 4-byte length of (4 + len data), the 4-byte type and the data; and
for messages whose type is in 1 .. 2^32 - 1 and whose frame length 4 + len data
is below 2^32, reading exactly the written bytes publishes exactly these
messages (type and data identical), once each, in the order written, and the
read task then ends at the end of the stream without a panic. -/
theorem write_read_roundtrip (snd rcv : Server)
    (encrypt decrypt : List Byte → List Byte × Option String) (c : Chan)
    (msgs : List Message) (hs : snd.conf.Encryption = false)
    (hr : rcv.conf.Encryption = false) (hrecv : rcv.received = some c)
    (hopen : c.closed = false)
    (hm : ∀ m ∈ msgs, 0 < m.MsgType ∧ m.MsgType < 4294967296
      ∧ 4 + (m.Data.length : Int) < 4294967296) :
    (∀ (m : Message) (queue : List Message), snd.write encrypt (m :: queue)
        = intToBytes (4 + (m.Data.length : Int)) ++ (intToBytes m.MsgType ++ m.Data)
            ++ snd.write encrypt queue)
    ∧ (rcv.read decrypt [snd.write encrypt msgs]).server.received
        = some { c with pending := c.pending ++ msgs.map fun m =>
            { err := none, MsgType := m.MsgType, Data := m.Data, Status := "" } }
    ∧ ((rcv.read decrypt [snd.write encrypt msgs]).exit = .closed
        ∨ (rcv.read decrypt [snd.write encrypt msgs]).exit = .reconnect) := by
  refine ⟨?_, ?_⟩
  · intro m queue
    simp only [Server.write, hs, Bool.false_eq_true, if_false, List.length_append,
      intToBytes_length]
    congr 3
  · obtain ⟨b, hb, hread⟩ := readFrom_write snd encrypt decrypt hs msgs rcv c
      (List.replicate 4 0) (by simp) hr hrecv hopen hm
    unfold Server.read
    rw [hread, readFrom_empty _ decrypt b hb]
    by_cases hst : rcv.status = .Closing <;> simp [hst]

/-- Witness of `write_read_roundtrip`: two messages through a pair of
Connected, unencrypted servers. -/
theorem write_read_roundtrip_witness :
    (∀ (m : Message) (queue : List Message),
        connectedServer.write (fun b => (b, none)) (m :: queue)
        = intToBytes (4 + (m.Data.length : Int)) ++ (intToBytes m.MsgType ++ m.Data)
            ++ connectedServer.write (fun b => (b, none)) queue)
    ∧ (connectedServer.read (fun b => (b, none))
        [connectedServer.write (fun b => (b, none))
          [{ err := none, MsgType := 5, Data := [1, 2], Status := "" },
           { err := none, MsgType := 6, Data := [], Status := "" }]]).server.received
        = some { makeChan with pending := makeChan.pending ++
            ([{ err := none, MsgType := 5, Data := [1, 2], Status := "" },
              { err := none, MsgType := 6, Data := [], Status := "" }] : List Message).map fun m =>
            { err := none, MsgType := m.MsgType, Data := m.Data, Status := "" } }
    ∧ ((connectedServer.read (fun b => (b, none))
        [connectedServer.write (fun b => (b, none))
          [{ err := none, MsgType := 5, Data := [1, 2], Status := "" },
           { err := none, MsgType := 6, Data := [], Status := "" }]]).exit = .closed
        ∨ (connectedServer.read (fun b => (b, none))
        [connectedServer.write (fun b => (b, none))
          [{ err := none, MsgType := 5, Data := [1, 2], Status := "" },
           { err := none, MsgType := 6, Data := [], Status := "" }]]).exit = .reconnect) :=
  write_read_roundtrip connectedServer connectedServer (fun b => (b, none)) (fun b => (b, none))
    makeChan
    [{ err := none, MsgType := 5, Data := [1, 2], Status := "" },
     { err := none, MsgType := 6, Data := [], Status := "" }]
    rfl rfl rfl rfl (by decide)

end Ipc
